import Mathlib

/-
Verification of the mosaic assembly and tiling pipeline of
src/vw/tools/image2qtree.h (NASA Vision Workbench `image2qtree` tool).

The development shallowly embeds the pieces of `do_mosaic` and
`Options::validate` that the specification talks about:
  * integer bounding boxes (vw::BBox2i) with crop / contains,
  * the KML power-of-two bounding-box alignment (do_mosaic, KML branch),
  * the date-line double-insertion rule of the composite assembler,
  * the global-coverage detector,
  * the empty-composite invariant check,
  * the lon/lat bbox stamped on KML / Gigapan quad-tree configs,
  * the option-validation logic (Options::validate).

Machine integers are modelled as ℤ (no arithmetic here comes near the
32-bit range in the claims' scenarios); `double` quantities that the
claims quantify over exactly are modelled as ℚ.  The C++ expression
`(int)(log((double)m)/log(2.))` computes `⌊log₂ m⌋` exactly for every
`int` m ≥ 1 (the quotient of correctly-rounded doubles never crosses an
integer boundary in that range), so it is embedded as an exact integer
base-2 logarithm.
-/

namespace ImageToQtree

/-- Integer bounding box, as vw::BBox2i: `min` corner inclusive, `max`
corner exclusive; a box constructed as BBox2i(x, y, w, h) has
min = (x, y) and max = (x + w, y + h). -/
structure BBox2i where
  minx : Int
  miny : Int
  maxx : Int
  maxy : Int
deriving DecidableEq, Repr

/-- vw::BBox2i::width: max().x() - min().x(). -/
def BBox2i.width (b : BBox2i) : Int := b.maxx - b.minx

/-- vw::BBox2i::height: max().y() - min().y(). -/
def BBox2i.height (b : BBox2i) : Int := b.maxy - b.miny

/-- vw::BBox::contains(BBox): componentwise min() ≤ other.min() and
other.max() ≤ max(). -/
def BBox2i.contains (a b : BBox2i) : Prop :=
  a.minx ≤ b.minx ∧ a.miny ≤ b.miny ∧ b.maxx ≤ a.maxx ∧ b.maxy ≤ a.maxy

instance (a b : BBox2i) : Decidable (a.contains b) :=
  inferInstanceAs (Decidable (a.minx ≤ b.minx ∧ a.miny ≤ b.miny ∧ b.maxx ≤ a.maxx ∧ b.maxy ≤ a.maxy))

/-- vw::BBox::crop: intersect this box with another (grow min, shrink max). -/
def BBox2i.crop (a b : BBox2i) : BBox2i :=
  ⟨max a.minx b.minx, max a.miny b.miny, min a.maxx b.maxx, min a.maxy b.maxy⟩

/-- Fuel-driven floor of the base-2 logarithm (kernel-reducible). -/
def log2aux : Nat → Nat → Nat
  | 0, _ => 0
  | fuel + 1, n => if n < 2 then 0 else log2aux fuel (n / 2) + 1

/-- Floor of log₂ n for n ≥ 1 (and 0 at 0): the exact value of the C++
expression `(int)(log((double)n)/log(2.))` for every int n ≥ 1. -/
def log2f (n : Nat) : Nat := log2aux n n

/-- The `dim` computation of the KML branch of do_mosaic:
`int dim = 2 << (int)(log((double)m)/log(2.)); if (dim > total_resolution) dim = total_resolution;`
where m = max(bbox.width(), bbox.height()). -/
def kmlDim (m tr : Int) : Int :=
  if 2 * 2 ^ log2f m.toNat > tr then tr else 2 * 2 ^ log2f m.toNat

/-- The square produced by snapping a box's min corner down to the nearest
multiple of dim: `BBox2i((bbox.min().x()/dim)*dim, (bbox.min().y()/dim)*dim, dim, dim)`.
The C++ `/` truncates toward zero; it is only ever applied here with a
nonnegative numerator (the box is already cropped to the canvas), where
truncation agrees with this Euclidean division. -/
def snapBox (b : BBox2i) (dim : Int) : BBox2i :=
  ⟨b.minx / dim * dim, b.miny / dim * dim,
   b.minx / dim * dim + dim, b.miny / dim * dim + dim⟩

/-- The containment fix-up of the KML branch: when the snapped square does
not contain the box, extend by dim on each axis — leftward when the right
edge already sits at the canvas bound, rightward otherwise (and the same
up/down).  The source performs the x-update and then the y-update in
place; the x-update never changes max().y(), so the two sequential
updates are written here as a nest of ifs. -/
def extendBox (t : BBox2i) (dim xres yres : Int) : BBox2i :=
  if t.maxx = xres then
    if t.maxy = yres then ⟨t.minx - dim, t.miny - dim, t.maxx, t.maxy⟩
    else ⟨t.minx - dim, t.miny, t.maxx, t.maxy + dim⟩
  else
    if t.maxy = yres then ⟨t.minx, t.miny - dim, t.maxx + dim, t.maxy⟩
    else ⟨t.minx, t.miny, t.maxx + dim, t.maxy + dim⟩

/-- The KML bounding-box aligner, do_mosaic lines 361-373. -/
def alignBBoxKML (b : BBox2i) (xres yres tr : Int) : BBox2i :=
  let dim := kmlDim (max b.width b.height) tr
  let t := snapBox b dim
  if t.contains b then t else extendBox t dim xres yres

/-- The composite-insertion rule of do_mosaic lines 341-349: a reprojected
source whose placement bbox wraps past the right canvas edge
(bbox.max().x() > total_resolution) is inserted shifted left by
total_resolution; one that begins before xresolution is inserted at its
normal position.  The returned list holds the insertion offsets handed to
composite.insert, in program order. -/
def compositeInsertions (bbox : BBox2i) (total_resolution xresolution : Int) :
    List (Int × Int) :=
  (if bbox.maxx > total_resolution then [(bbox.minx - total_resolution, bbox.miny)] else []) ++
  (if bbox.minx < xresolution then [(bbox.minx, bbox.miny)] else [])

/-- Models the external boost::algorithm::trim_copy collaborator: strip
leading and trailing whitespace from a string. -/
def trimCopy (s : String) : String :=
  String.mk (((s.data.dropWhile Char.isWhitespace).reverse.dropWhile
    Char.isWhitespace).reverse)

/-- The global-coverage detector of do_mosaic lines 289-293:
true iff trimmed proj4 string is "+proj=longlat" and the forward pixel
mappings of (-180,0), (180,0), (0,90), (0,-90) each lie strictly within
1 pixel of the left, right, top and bottom image edges.  The mapped
coordinates (produced by the external georeference collaborator) and the
image dimensions are abstract rational inputs: pxL and pxR are the x
coordinates of the mapped (-180,0) and (180,0), pyT and pyB the y
coordinates of the mapped (0,90) and (0,-90). -/
def isGlobal (proj4Str : String) (cols rows pxL pxR pyT pyB : ℚ) : Bool :=
  decide (trimCopy proj4Str = "+proj=longlat") && decide (|pxL| < 1) &&
  decide (|pxR - cols| < 1) && decide (|pyT| < 1) && decide (|pyB - rows| < 1)

/-- Output mode (VW_DEFINE_ENUM_PROTO(Mode, 7,
(NONE, KML, TMS, UNIVIEW, GMAP, CELESTIA, GIGAPAN))). -/
inductive Mode where
  | none
  | kml
  | tms
  | uniview
  | gmap
  | celestia
  | gigapan
deriving DecidableEq, Repr

/-- The pipeline failure raised by the VW_ASSERT of do_mosaic lines
358-359 (LogicErr "Total bbox is empty. Georeference calculation is
probably incorrect."), the spec's EmptyCompositeError. -/
inductive MosaicError where
  | emptyComposite
deriving DecidableEq, Repr

/-- do_mosaic lines 355-359: the composite's union bbox is cropped to the
canvas [0,xresolution]×[0,yresolution] and must come out with strictly
positive width and height, else the run aborts. -/
def croppedTotalBBox (compositeBBox : BBox2i) (xres yres : Int) :
    Except MosaicError BBox2i :=
  if (compositeBBox.crop ⟨0, 0, xres, yres⟩).width > 0 ∧
      (compositeBBox.crop ⟨0, 0, xres, yres⟩).height > 0
  then Except.ok (compositeBBox.crop ⟨0, 0, xres, yres⟩)
  else Except.error MosaicError.emptyComposite

/-- The bbox bookkeeping of do_mosaic downstream of the empty-composite
check: KML mode aligns the cropped bbox, the other modes use it directly;
the resulting box is what quad-tree generation is driven with.  An
emptyComposite error short-circuits: no alignment and no quad-tree
generation happens. -/
def tilingBBox (mode : Mode) (compositeBBox : BBox2i) (xres yres tr : Int) :
    Except MosaicError BBox2i :=
  match croppedTotalBBox compositeBBox xres yres with
  | Except.error e => Except.error e
  | Except.ok tb =>
      Except.ok (if mode = Mode.kml then alignBBoxKML tb xres yres tr else tb)

/-- A pixel with an alpha channel (PixelGrayA-style); channel values in ℚ
with 1 standing for the channel maximum (fully opaque). -/
structure PixelA where
  val : ℚ
  alpha : ℚ
deriving DecidableEq, Repr

/-- mask_to_alpha(create_mask(source, nodataVal)) at one pixel: a pixel
equal to the nodata value becomes the zero (fully transparent) pixel, any
other pixel is kept opaque. -/
def maskToAlpha (nodataVal : ℚ) (p : ℚ) : PixelA :=
  if p = nodataVal then ⟨0, 0⟩ else ⟨p, 1⟩

/-- The nodata dispatch of do_mosaic lines 279-287: an explicitly
configured nodata value (opt.nodata.set()) takes the first branch even
when the file also declares one natively (file->has_nodata_read()); the
native value is used only when no explicit value is configured; with
neither, the source is passed through without any alpha masking. -/
def applyNodata (optNodata fileNodata : Option ℚ) (p : ℚ) : PixelA :=
  match optNodata with
  | some v => maskToAlpha v p
  | none =>
    match fileNodata with
    | some v => maskToAlpha v p
    | none => ⟨p, 1⟩

/-- Real-valued bounding box (vw::BBox2), as constructed by
BBox2(x, y, w, h): min = (x, y), max = (x + w, y + h). -/
structure BBox2q where
  minx : ℚ
  miny : ℚ
  maxx : ℚ
  maxy : ℚ
deriving DecidableEq, Repr

/-- The longitude of an output-canvas pixel column:
lon = -180 + 360·x/x_resolution. -/
def lonOfPixel (xres : Int) (x : Int) : ℚ := -180 + 360 * (x : ℚ) / (xres : ℚ)

/-- The latitude of an output-canvas pixel row:
lat = 180 - 360·y/y_resolution. -/
def latOfPixel (yres : Int) (y : Int) : ℚ := 180 - 360 * (y : ℚ) / (yres : ℚ)

/-- The ll_bbox constructed by the KML and Gigapan stampings (do_mosaic
lines 388-391 and 405-408): BBox2(-180 + (360·min.x)/xres,
180 - (360·max.y)/yres, (360·width)/xres, (360·height)/yres). -/
def llBBoxOf (tb : BBox2i) (xres yres : Int) : BBox2q :=
  ⟨-180 + 360 * (tb.minx : ℚ) / (xres : ℚ),
   180 - 360 * (tb.maxy : ℚ) / (yres : ℚ),
   (-180 + 360 * (tb.minx : ℚ) / (xres : ℚ)) + 360 * (tb.width : ℚ) / (xres : ℚ),
   (180 - 360 * (tb.maxy : ℚ) / (yres : ℚ)) + 360 * (tb.height : ℚ) / (yres : ℚ)⟩

/-- The per-mode metadata stamped onto the quad-tree config before
generation (do_mosaic lines 386-410). -/
inductive StampedConfig where
  | kml (llBBox : BBox2q) (maxLodPixels : Int) (drawOrderOffset : Int)
  | celestia (moduleName : String)
  | uniview (terrain : Bool) (moduleName : String)
  | gigapan (llBBox : BBox2q)
  | plain
deriving DecidableEq, Repr

/-- The mode dispatch of do_mosaic lines 386-410: KML stamps the ll_bbox
plus max-LOD-pixels and draw-order offset, Celestia a module name,
Uniview a terrain flag and module name, Gigapan the ll_bbox; every other
mode stamps nothing. -/
def stampConfig (mode : Mode) (tb : BBox2i) (xres yres : Int)
    (maxLodPixels drawOrderOffset : Int) (terrain : Bool) (moduleName : String) :
    StampedConfig :=
  if mode = Mode.kml then
    StampedConfig.kml (llBBoxOf tb xres yres) maxLodPixels drawOrderOffset
  else if mode = Mode.celestia then StampedConfig.celestia moduleName
  else if mode = Mode.uniview then StampedConfig.uniview terrain moduleName
  else if mode = Mode.gigapan then StampedConfig.gigapan (llBBoxOf tb xres yres)
  else StampedConfig.plain

/-- The lon/lat bbox carried by a stamped config, when it has one. -/
def StampedConfig.llBBoxStamped : StampedConfig → Option BBox2q
  | StampedConfig.kml ll _ _ => some ll
  | StampedConfig.gigapan ll => some ll
  | _ => none

/-- vw::tools::Tristate: a configuration value plus a flag recording
whether it was explicitly set.  The two-argument C++ constructor
Tristate(v, true) used in the Options constructor builds an implicit
default (value v, not set); plain assignment marks the value as set. -/
structure Tristate (α : Type) where
  value : α
  isSet : Bool
deriving DecidableEq, Repr

/-- Tristate::set(): whether the value was explicitly set. -/
def Tristate.set {α : Type} (t : Tristate α) : Bool := t.isSet

/-- A default (unset) Tristate, Tristate(v, true) in the source. -/
def Tristate.dflt {α : Type} (v : α) : Tristate α := ⟨v, false⟩

/-- Assignment to a Tristate, which marks it set. -/
def Tristate.assign {α : Type} (v : α) : Tristate α := ⟨v, true⟩

/-- VW_DEFINE_ENUM_PROTO(Channel, 5, (NONE, UINT8, UINT16, INT16, FLOAT)). -/
inductive Channel where
  | none
  | uint8
  | uint16
  | int16
  | float
deriving DecidableEq, Repr

/-- VW_DEFINE_ENUM_PROTO(DatumOverride, 5, (NONE, WGS84, LUNAR, MARS, SPHERE)). -/
inductive DatumOverride where
  | none
  | wgs84
  | lunar
  | mars
  | sphere
deriving DecidableEq, Repr

/-- VW_DEFINE_ENUM_PROTO(Projection, 11, ...). -/
inductive Projection where
  | default
  | none
  | sinusoidal
  | mercator
  | transverseMercator
  | orthographic
  | stereographic
  | lambertAzimuthal
  | lambertConformalConic
  | utm
  | plateCarree
deriving DecidableEq, Repr

/-- The kml sub-struct of Options. -/
structure KmlOptions where
  draw_order_offset : Int
  max_lod_pixels : Int
deriving DecidableEq, Repr

/-- The proj_ sub-struct of Options. -/
structure ProjOptions where
  type : Projection
  lat : Tristate ℚ
  lon : Tristate ℚ
  scale : Tristate ℚ
  p1 : Tristate ℚ
  p2 : Tristate ℚ
  utm_zone : Tristate Int
deriving DecidableEq, Repr

/-- The datum_ sub-struct of Options. -/
structure DatumOptions where
  type : DatumOverride
  sphere_radius : Tristate ℚ
deriving DecidableEq, Repr

/-- The image2qtree Options block (float/double fields as ℚ, integer
fields as ℤ). -/
structure Options where
  input_files : List String
  output_file_name : String
  output_file_type : Tristate String
  module_name : Tristate String
  nudge_x : Tristate ℚ
  nudge_y : Tristate ℚ
  tile_size : Tristate Int
  jpeg_quality : Tristate ℚ
  png_compression : Tristate Int
  pixel_scale : Tristate ℚ
  pixel_offset : Tristate ℚ
  aspect_r : Tristate Int
  global_resolution : Tristate Int
  nodata : Tristate ℚ
  north : Tristate ℚ
  south : Tristate ℚ
  east : Tristate ℚ
  west : Tristate ℚ
  channel_type : Channel
  mode : Mode
  multiband : Bool
  help : Bool
  normalize : Bool
  terrain : Bool
  manual : Bool
  global : Bool
  kml : KmlOptions
  proj : ProjOptions
  datum : DatumOptions
deriving DecidableEq, Repr

/-- Models the external boost::filesystem collaborator
fs::path(p).replace_extension(): drop the suffix starting at the last
dot of the final path component, when there is one. -/
def dropLastExtension (s : String) : String :=
  match (s.data.reverse).findIdx? (fun c => c = '.' || c = '/') with
  | some i =>
      if (s.data.reverse)[i]? = some '.' then
        String.mk ((s.data.reverse.drop (i + 1)).reverse)
      else s
  | Option.none => s

/-- The mode switch and projection check at the end of Options::validate
(lines 169-187): Mode::NONE and Projection::NONE admit only a single
input; Celestia and Uniview require a module name. -/
def validateModes (o : Options) : Except String Options :=
  if o.mode = Mode.none ∧ ¬ (o.input_files.length = 1) then
    Except.error "Non-georeferenced images cannot be composed"
  else if (o.mode = Mode.celestia ∨ o.mode = Mode.uniview) ∧
      ¬ (o.module_name.set = true) then
    Except.error "Uniview and Celestia require --module-name"
  else if o.proj.type = Projection.none ∧ ¬ (o.input_files.length = 1) then
    Except.error "Non-georeferenced images cannot be composed"
  else Except.ok o

/-- The geographic-bounds override block of Options::validate (lines
158-167): if the global flag or any of north/south/east/west is set, there
must be exactly one input and either the global flag or all four bounds;
the global flag overwrites the four bounds with 90, -90, 180, -180; manual
georeferencing is forced on. -/
def validateBounds (o : Options) : Except String Options :=
  if o.global = true ∨ o.north.set = true ∨ o.south.set = true ∨
      o.east.set = true ∨ o.west.set = true then
    if ¬ (o.input_files.length = 1) then
      Except.error "Cannot override georeference information on multiple images"
    else if ¬ (o.global = true ∨ (o.north.set = true ∧ o.south.set = true ∧
        o.east.set = true ∧ o.west.set = true)) then
      Except.error "If you provide one, you must provide all of: --north --south --east --west"
    else if o.global = true then
      validateModes { o with north := Tristate.assign 90, south := Tristate.assign (-90),
                             east := Tristate.assign 180, west := Tristate.assign (-180),
                             manual := true }
    else validateModes { o with manual := true }
  else validateModes o

/-- Options::validate (lines 146-192).  VW_ASSERT failures are modelled
as errors carrying the assertion message; the jpeg/png default-quality
calls touch no Options field and are omitted. -/
def Options.validate (o : Options) : Except String Options :=
  if o.help then Except.error "Usage" else
  if ¬ (o.input_files.length > 0) then
    Except.error "Need at least one input image" else
  if o.datum.type = DatumOverride.sphere ∧ ¬ (o.datum.sphere_radius.set = true) then
    Except.error "Sphere datum override requires a radius" else
  validateBounds (if o.output_file_name = "" then
    { o with output_file_name := dropLastExtension (o.input_files.headD "") }
  else o)

/-- A concrete Options record used to instantiate the validation
theorems: no flag set, no bound set, one KML-mode invocation shape. -/
def sampleOptions : Options :=
  { input_files := []
    output_file_name := ""
    output_file_type := ⟨"png", false⟩
    module_name := ⟨"", false⟩
    nudge_x := ⟨0, false⟩
    nudge_y := ⟨0, false⟩
    tile_size := ⟨256, false⟩
    jpeg_quality := ⟨0, false⟩
    png_compression := ⟨0, false⟩
    pixel_scale := ⟨1, false⟩
    pixel_offset := ⟨0, false⟩
    aspect_r := ⟨1, false⟩
    global_resolution := ⟨0, false⟩
    nodata := ⟨0, false⟩
    north := ⟨0, false⟩
    south := ⟨0, false⟩
    east := ⟨0, false⟩
    west := ⟨0, false⟩
    channel_type := Channel.none
    mode := Mode.kml
    multiband := false
    help := false
    normalize := false
    terrain := false
    manual := false
    global := false
    kml := ⟨0, 0⟩
    proj := ⟨Projection.default, ⟨0, false⟩, ⟨0, false⟩, ⟨1, false⟩,
             ⟨0, false⟩, ⟨0, false⟩, ⟨0, false⟩⟩
    datum := ⟨DatumOverride.none, ⟨0, false⟩⟩ }

theorem log2aux_spec : ∀ (fuel n : Nat), 1 ≤ n → n ≤ fuel →
    2 ^ log2aux fuel n ≤ n ∧ n < 2 ^ (log2aux fuel n + 1)
  | 0, n, h1, h2 => by omega
  | fuel + 1, n, h1, h2 => by
    unfold log2aux
    by_cases h : n < 2
    · simp only [h, if_true]
      constructor <;> simp <;> omega
    · simp only [h, if_false]
      have hrec := log2aux_spec fuel (n / 2) (by omega) (by omega)
      have e1 : 2 ^ (log2aux fuel (n / 2) + 1) = 2 * 2 ^ log2aux fuel (n / 2) := by ring
      have e2 : 2 ^ (log2aux fuel (n / 2) + 1 + 1) = 2 * 2 ^ (log2aux fuel (n / 2) + 1) := by ring
      omega

theorem log2f_spec (n : Nat) (h : 1 ≤ n) :
    2 ^ log2f n ≤ n ∧ n < 2 ^ (log2f n + 1) :=
  log2aux_spec n n h le_rfl

theorem snap_facts (a d : Int) (hd : 0 < d) :
    a / d * d ≤ a ∧ a < a / d * d + d := by
  have h2 := Int.ediv_add_emod a d
  have h3 := Int.emod_nonneg a (by omega : d ≠ 0)
  have h4 := Int.emod_lt_of_pos a hd
  constructor
  · nlinarith
  · nlinarith

theorem kmlDim_cases (m tr : Int) (k : ℕ) (h1 : 1 ≤ m) (htr : tr = 2 ^ k) (h2 : m ≤ tr) :
    ∃ j : ℕ, j ≤ k ∧ kmlDim m tr = 2 ^ j ∧ m ≤ 2 ^ j := by
  have hnn : 1 ≤ m.toNat := by omega
  obtain ⟨hlo, hhi⟩ := log2f_spec m.toNat hnn
  have hcast : ((m.toNat : Int)) = m := by omega
  have hhi' : m < (2:Int) ^ (log2f m.toNat + 1) := by
    rw [← hcast]
    exact_mod_cast hhi
  have hd : (2:Int) * 2 ^ log2f m.toNat = 2 ^ (log2f m.toNat + 1) := by
    rw [pow_succ]; ring
  unfold kmlDim
  by_cases hcap : (2:Int) * 2 ^ log2f m.toNat > tr
  · refine ⟨k, le_rfl, ?_, ?_⟩
    · rw [if_pos hcap]; exact htr
    · rw [← htr]; exact h2
  · refine ⟨log2f m.toNat + 1, ?_, ?_, le_of_lt hhi'⟩
    · have hle : (2:Int) ^ (log2f m.toNat + 1) ≤ 2 ^ k := by
        rw [← hd, ← htr]; omega
      exact (pow_le_pow_iff_right₀ (by norm_num : (1:Int) < 2)).mp hle
    · rw [if_neg hcap]; exact hd

theorem extendBox_spec (t b : BBox2i) (dim xres yres : Int)
    (hdim : 0 ≤ dim)
    (h1 : t.minx ≤ b.minx) (h2 : t.miny ≤ b.miny)
    (h3 : b.maxx ≤ t.maxx + dim) (h4 : b.maxy ≤ t.maxy + dim)
    (hx : b.maxx ≤ xres) (hy : b.maxy ≤ yres)
    (htw : t.width = dim) (hth : t.height = dim) :
    (extendBox t dim xres yres).width = 2 * dim ∧
    (extendBox t dim xres yres).height = 2 * dim ∧
    (extendBox t dim xres yres).contains b := by
  unfold extendBox
  unfold BBox2i.contains BBox2i.width BBox2i.height at *
  by_cases e1 : t.maxx = xres
  · rw [if_pos e1]
    by_cases e2 : t.maxy = yres
    · rw [if_pos e2]; dsimp only; exact ⟨by omega, by omega, by omega, by omega, by omega, by omega⟩
    · rw [if_neg e2]; dsimp only; exact ⟨by omega, by omega, by omega, by omega, by omega, by omega⟩
  · rw [if_neg e1]
    by_cases e2 : t.maxy = yres
    · rw [if_pos e2]; dsimp only; exact ⟨by omega, by omega, by omega, by omega, by omega, by omega⟩
    · rw [if_neg e2]; dsimp only; exact ⟨by omega, by omega, by omega, by omega, by omega, by omega⟩

theorem snapBox_width (b : BBox2i) (dim : Int) : (snapBox b dim).width = dim := by
  show b.minx / dim * dim + dim - b.minx / dim * dim = dim
  ring

theorem snapBox_height (b : BBox2i) (dim : Int) : (snapBox b dim).height = dim := by
  show b.miny / dim * dim + dim - b.miny / dim * dim = dim
  ring

/-- C1 (amended): for a non-degenerate composite bbox inside the canvas,
with the canvas square at a power-of-two total resolution, the KML
aligner produces a square whose side is a power of two, at most
total_resolution, containing the input box.  (The idempotence part of the
original claim is refuted by kml_align_idempotence_cex.) -/
theorem kml_align_invariant (b : BBox2i) (xres yres tr : Int) (k : ℕ)
    (htr : tr = 2 ^ k) (hx : xres = tr) (hy : yres = tr)
    (h0x : 0 ≤ b.minx) (h0y : 0 ≤ b.miny)
    (hbx : b.maxx ≤ xres) (hby : b.maxy ≤ yres)
    (hw : 0 < b.width) (hh : 0 < b.height) :
    (alignBBoxKML b xres yres tr).width = (alignBBoxKML b xres yres tr).height ∧
    (∃ j : ℕ, (alignBBoxKML b xres yres tr).width = 2 ^ j) ∧
    (alignBBoxKML b xres yres tr).width ≤ tr ∧
    (alignBBoxKML b xres yres tr).contains b := by
  have hw' : 0 < b.maxx - b.minx := hw
  have hh' : 0 < b.maxy - b.miny := hh
  have hwd : b.width = b.maxx - b.minx := rfl
  have hht : b.height = b.maxy - b.miny := rfl
  have hm1 : 1 ≤ max b.width b.height := by rw [hwd, hht]; omega
  have hmtr : max b.width b.height ≤ tr := by rw [hwd, hht]; omega
  obtain ⟨j, hjk, hdim, hmdim⟩ := kmlDim_cases (max b.width b.height) tr k hm1 htr hmtr
  set dim := kmlDim (max b.width b.height) tr with hdimdef
  have hdpos : 0 < dim := by rw [hdim]; positivity
  have hdtr : dim ≤ tr := by
    rw [hdim, htr]
    exact pow_le_pow_right₀ (by norm_num) hjk
  have hwdim : b.maxx - b.minx ≤ dim := by
    rw [hwd, hht] at hmdim; rw [hdim]; omega
  have hhdim : b.maxy - b.miny ≤ dim := by
    rw [hwd, hht] at hmdim; rw [hdim]; omega
  have halign : alignBBoxKML b xres yres tr =
      if (snapBox b dim).contains b then snapBox b dim
      else extendBox (snapBox b dim) dim xres yres := rfl
  obtain ⟨hsx1, hsx2⟩ := snap_facts b.minx dim hdpos
  obtain ⟨hsy1, hsy2⟩ := snap_facts b.miny dim hdpos
  by_cases hc : (snapBox b dim).contains b
  · rw [halign, if_pos hc]
    exact ⟨by rw [snapBox_width, snapBox_height], ⟨j, by rw [snapBox_width, hdim]⟩,
      by rw [snapBox_width]; exact hdtr, hc⟩
  · have hjlt : j < k := by
      rcases lt_or_eq_of_le hjk with h | h
      · exact h
      · exfalso
        apply hc
        have hdt : dim = tr := by rw [hdim, h, htr]
        have e0 : b.minx / dim = 0 :=
          Int.ediv_eq_zero_of_lt h0x (by omega)
        have e1 : b.miny / dim = 0 :=
          Int.ediv_eq_zero_of_lt h0y (by omega)
        refine ⟨?_, ?_, ?_, ?_⟩ <;>
          simp only [snapBox, e0, e1, zero_mul] <;> omega
    have h2dim : 2 * dim ≤ tr := by
      have : (2:Int) ^ (j + 1) ≤ 2 ^ k := pow_le_pow_right₀ (by norm_num) (by omega)
      rw [hdim, htr]
      rw [pow_succ] at this
      omega
    have hext := extendBox_spec (snapBox b dim) b dim xres yres (by omega)
      hsx1 hsy1 (by show b.maxx ≤ b.minx / dim * dim + dim + dim; omega)
      (by show b.maxy ≤ b.miny / dim * dim + dim + dim; omega)
      hbx hby (snapBox_width b dim) (snapBox_height b dim)
    rw [halign, if_neg hc]
    exact ⟨by rw [hext.1, hext.2.1], ⟨j + 1, by rw [hext.1, hdim, pow_succ]; ring⟩,
      by rw [hext.1]; omega, hext.2.2⟩

/-- C1 counterexample to the idempotence part of the original claim: the
non-degenerate box (0,0)-(256,256) on a 1024-canvas aligns to the square
(0,0)-(512,512), but re-aligning that square yields (0,0)-(1024,1024),
not the square itself. -/
theorem kml_align_idempotence_cex :
    (0:Int) < BBox2i.width ⟨0, 0, 256, 256⟩ ∧
    (0:Int) < BBox2i.height ⟨0, 0, 256, 256⟩ ∧
    alignBBoxKML ⟨0, 0, 256, 256⟩ 1024 1024 1024 = ⟨0, 0, 512, 512⟩ ∧
    alignBBoxKML ⟨0, 0, 512, 512⟩ 1024 1024 1024 ≠ ⟨0, 0, 512, 512⟩ := by
  decide

/-- C1 witness: the amended invariant evaluated on the concrete box
(3,5)-(700,600) in a 1024-canvas. -/
theorem kml_align_invariant_witness :
    (alignBBoxKML ⟨3, 5, 700, 600⟩ 1024 1024 1024).width =
      (alignBBoxKML ⟨3, 5, 700, 600⟩ 1024 1024 1024).height ∧
    (∃ j : ℕ, (alignBBoxKML ⟨3, 5, 700, 600⟩ 1024 1024 1024).width = 2 ^ j) ∧
    (alignBBoxKML ⟨3, 5, 700, 600⟩ 1024 1024 1024).width ≤ 1024 ∧
    (alignBBoxKML ⟨3, 5, 700, 600⟩ 1024 1024 1024).contains ⟨3, 5, 700, 600⟩ :=
  kml_align_invariant ⟨3, 5, 700, 600⟩ 1024 1024 1024 10 (by norm_num) rfl rfl
    (by decide) (by decide) (by decide) (by decide) (by decide) (by decide)

/-- C2 (amended): the KML alignment dimension is the smallest power of
two strictly greater than max(width, height), capped at total_resolution
(for a power-of-two input m below the cap the code yields 2·m, not m). -/
theorem kml_dim_formula (m tr : Int) (hm : 1 ≤ m) :
    ∃ j : ℕ, kmlDim m tr = min ((2:Int) ^ j) tr ∧ m < 2 ^ j ∧
      ∀ i : ℕ, m < 2 ^ i → j ≤ i := by
  have hcast : ((m.toNat : Int)) = m := by omega
  refine ⟨log2f m.toNat + 1, ?_, ?_, ?_⟩
  · unfold kmlDim
    have hd : (2:Int) * 2 ^ log2f m.toNat = 2 ^ (log2f m.toNat + 1) := by
      rw [pow_succ]; ring
    rw [hd]
    rcases le_or_lt ((2:Int) ^ (log2f m.toNat + 1)) tr with h | h
    · rw [if_neg (by omega), min_eq_left h]
    · rw [if_pos (by omega), min_eq_right (le_of_lt h)]
  · have := (log2f_spec m.toNat (by omega)).2
    rw [← hcast]
    exact_mod_cast this
  · intro i hi
    have hlo := (log2f_spec m.toNat (by omega)).1
    have hmi : m.toNat < 2 ^ i := by
      have h2 : ((m.toNat : Int)) < (2:Int) ^ i := by rw [hcast]; exact hi
      exact_mod_cast h2
    have hpp : 2 ^ log2f m.toNat < 2 ^ i := lt_of_le_of_lt hlo hmi
    have := (Nat.pow_lt_pow_iff_right (by norm_num)).mp hpp
    omega

/-- C2 witness: the amended dim formula applied at max(width,height) = 3,
total_resolution = 1024. -/
theorem kml_dim_formula_witness :
    ∃ j : ℕ, kmlDim 3 1024 = min ((2:Int) ^ j) 1024 ∧ (3:Int) < 2 ^ j ∧
      ∀ i : ℕ, (3:Int) < 2 ^ i → j ≤ i :=
  kml_dim_formula 3 1024 (by norm_num)

/-- C2 counterexample to the original claim: 256 is a power of two not
exceeding total_resolution 1024, yet the code computes dim = 512, not the
claimed smallest power of two ≥ 256 (which is 256 itself). -/
theorem kml_dim_cex :
    (256:Int) = 2 ^ (8:ℕ) ∧ (256:Int) ≤ 1024 ∧ kmlDim 256 1024 = 512 := by
  decide

/-- C3: a placement bbox with max().x() > total_resolution and
min().x() < xresolution gets exactly two insertions — the left-shifted one
and the normal one; a non-empty bbox lying fully inside the canvas (with
xresolution equal to total_resolution, i.e. aspect ratio 1) gets exactly
the single normal insertion and never the shifted one. -/
theorem composite_insertions_spec (bbox : BBox2i) (tr xres : Int) :
    (bbox.maxx > tr → bbox.minx < xres →
      compositeInsertions bbox tr xres =
        [(bbox.minx - tr, bbox.miny), (bbox.minx, bbox.miny)]) ∧
    (0 ≤ bbox.minx → bbox.minx < bbox.maxx → bbox.maxx ≤ tr → xres = tr →
      compositeInsertions bbox tr xres = [(bbox.minx, bbox.miny)]) := by
  constructor
  · intro h1 h2
    unfold compositeInsertions
    rw [if_pos h1, if_pos h2]
    rfl
  · intro h1 h2 h3 h4
    unfold compositeInsertions
    rw [if_neg (by omega), if_pos (by omega)]
    rfl

/-- C3 witness: a box wrapping past the right edge of a 1024-canvas gets
the shifted and the normal insertion; a box fully inside gets only the
normal one. -/
theorem composite_insertions_witness :
    compositeInsertions ⟨900, 10, 1100, 200⟩ 1024 1024 =
      [(900 - 1024, 10), (900, 10)] ∧
    compositeInsertions ⟨100, 10, 300, 200⟩ 1024 1024 = [(100, 10)] :=
  ⟨(composite_insertions_spec ⟨900, 10, 1100, 200⟩ 1024 1024).1 (by decide) (by decide),
   (composite_insertions_spec ⟨100, 10, 300, 200⟩ 1024 1024).2 (by decide) (by decide)
     (by decide) rfl⟩

/-- C4 (amended): the detector returns true exactly when the projection is
plain longitude/latitude and each mapped coordinate lies strictly within
1 pixel of its edge; moving any one mapped coordinate to at least 1 pixel
from its edge forces false.  (A perturbation of magnitude > 1 whose result
stays strictly within 1 pixel of the edge does not force false — see
global_detector_cex.) -/
theorem global_detector_spec (proj4Str : String) (cols rows pxL pxR pyT pyB : ℚ) :
    (isGlobal proj4Str cols rows pxL pxR pyT pyB = true ↔
      (trimCopy proj4Str = "+proj=longlat" ∧ |pxL| < 1 ∧ |pxR - cols| < 1 ∧
        |pyT| < 1 ∧ |pyB - rows| < 1)) ∧
    ((1 ≤ |pxL| ∨ 1 ≤ |pxR - cols| ∨ 1 ≤ |pyT| ∨ 1 ≤ |pyB - rows|) →
      isGlobal proj4Str cols rows pxL pxR pyT pyB = false) := by
  constructor
  · unfold isGlobal
    simp only [Bool.and_eq_true, decide_eq_true_eq, and_assoc]
  · intro h
    unfold isGlobal
    rcases h with h | h | h | h <;>
      · have hn := not_lt.mpr h
        simp [hn]

/-- C4 witness: the detector rejects an input whose mapped (-180,0) lies
3/2 pixels from the left edge. -/
theorem global_detector_spec_witness :
    isGlobal "+proj=longlat" 100 100 (3/2) 100 0 100 = false :=
  (global_detector_spec "+proj=longlat" 100 100 (3/2) 100 0 100).2
    (Or.inl (by rw [abs_of_pos (by norm_num : (0:ℚ) < 3/2)]; norm_num))

/-- C4 counterexample to the original claim's perturbation clause: a
configuration the detector accepts, whose mapped (-180,0) x coordinate is
then perturbed by 3/2 (more than 1 pixel), yet the detector still returns
true, because the perturbed coordinate stays strictly within 1 pixel of
the edge. -/
theorem global_detector_cex :
    isGlobal "+proj=longlat" 100 100 (-9/10) 100 0 100 = true ∧
    |(3/5 : ℚ) - (-9/10)| > 1 ∧
    isGlobal "+proj=longlat" 100 100 (3/5) 100 0 100 = true := by
  refine ⟨?_, ?_, ?_⟩
  · unfold isGlobal
    simp only [Bool.and_eq_true, decide_eq_true_eq]
    refine ⟨⟨⟨⟨by decide, ?_⟩, ?_⟩, ?_⟩, ?_⟩ <;>
      rw [abs_lt] <;> constructor <;> norm_num
  · have he : (3/5 : ℚ) - (-9/10) = 3/2 := by norm_num
    rw [he, abs_of_pos (by norm_num)]
    norm_num
  · unfold isGlobal
    simp only [Bool.and_eq_true, decide_eq_true_eq]
    refine ⟨⟨⟨⟨by decide, ?_⟩, ?_⟩, ?_⟩, ?_⟩ <;>
      rw [abs_lt] <;> constructor <;> norm_num

/-- C5: if the cropped composite bbox does not have strictly positive
width and height the pipeline fails with the empty-composite error and no
quad-tree bbox is ever produced, for every output mode; otherwise the
check passes and tiling proceeds with a bbox. -/
theorem empty_composite_check (cb : BBox2i) (xres yres tr : Int) (mode : Mode) :
    (¬ ((cb.crop ⟨0, 0, xres, yres⟩).width > 0 ∧
        (cb.crop ⟨0, 0, xres, yres⟩).height > 0) →
      croppedTotalBBox cb xres yres = Except.error MosaicError.emptyComposite ∧
      tilingBBox mode cb xres yres tr = Except.error MosaicError.emptyComposite) ∧
    (((cb.crop ⟨0, 0, xres, yres⟩).width > 0 ∧
        (cb.crop ⟨0, 0, xres, yres⟩).height > 0) →
      croppedTotalBBox cb xres yres = Except.ok (cb.crop ⟨0, 0, xres, yres⟩) ∧
      ∃ tb, tilingBBox mode cb xres yres tr = Except.ok tb) := by
  constructor
  · intro h
    unfold tilingBBox croppedTotalBBox
    rw [if_neg h]
    exact ⟨rfl, rfl⟩
  · intro h
    unfold tilingBBox croppedTotalBBox
    rw [if_pos h]
    exact ⟨rfl, ⟨_, rfl⟩⟩

/-- C5 witness: a composite bbox lying entirely left of the canvas crops
to zero width and aborts the pipeline; one overlapping the canvas
passes the check. -/
theorem empty_composite_check_witness :
    (croppedTotalBBox ⟨-9, -5, 0, 7⟩ 1024 1024 =
        Except.error MosaicError.emptyComposite ∧
      tilingBBox Mode.kml ⟨-9, -5, 0, 7⟩ 1024 1024 1024 =
        Except.error MosaicError.emptyComposite) ∧
    (croppedTotalBBox ⟨-9, -5, 40, 7⟩ 1024 1024 =
        Except.ok (BBox2i.crop ⟨-9, -5, 40, 7⟩ ⟨0, 0, 1024, 1024⟩) ∧
      ∃ tb, tilingBBox Mode.kml ⟨-9, -5, 40, 7⟩ 1024 1024 1024 = Except.ok tb) :=
  ⟨(empty_composite_check ⟨-9, -5, 0, 7⟩ 1024 1024 1024 Mode.kml).1 (by decide),
   (empty_composite_check ⟨-9, -5, 40, 7⟩ 1024 1024 1024 Mode.kml).2 (by decide)⟩

/-- C6: nodata masking precedence — the explicit value masks even when a
native value exists; the native value masks only when no explicit value is
configured; with neither, the pixel is untouched and opaque; and masking
by a value makes exactly the pixels equal to that value transparent. -/
theorem nodata_precedence :
    ∀ (e nv p : ℚ) (native : Option ℚ),
      applyNodata (some e) native p = maskToAlpha e p ∧
      applyNodata none (some nv) p = maskToAlpha nv p ∧
      applyNodata none none p = ⟨p, 1⟩ ∧
      ((maskToAlpha e p).alpha = 0 ↔ p = e) := by
  intro e nv p native
  refine ⟨rfl, rfl, rfl, ?_⟩
  unfold maskToAlpha
  by_cases h : p = e <;> simp [h]

/-- C7: in KML and Gigapan modes the lon/lat bbox stamped onto the
quad-tree config is exactly the image of the aligned pixel bbox under
lon = -180 + 360·x/xres and lat = 180 - 360·y/yres: its min corner is
(lon(min.x), lat(max.y)) and its max corner is (lon(max.x), lat(min.y)). -/
theorem lonlat_bbox_stamp (tb : BBox2i) (xres yres : Int)
    (mx dr : Int) (te : Bool) (mn : String)
    (hx : 0 < xres) (hy : 0 < yres) :
    (stampConfig Mode.kml tb xres yres mx dr te mn).llBBoxStamped =
      some ⟨lonOfPixel xres tb.minx, latOfPixel yres tb.maxy,
            lonOfPixel xres tb.maxx, latOfPixel yres tb.miny⟩ ∧
    (stampConfig Mode.gigapan tb xres yres mx dr te mn).llBBoxStamped =
      some ⟨lonOfPixel xres tb.minx, latOfPixel yres tb.maxy,
            lonOfPixel xres tb.maxx, latOfPixel yres tb.miny⟩ := by
  have hx0 : (xres : ℚ) ≠ 0 := Int.cast_ne_zero.mpr (by omega)
  have hy0 : (yres : ℚ) ≠ 0 := Int.cast_ne_zero.mpr (by omega)
  have hllb : llBBoxOf tb xres yres =
      ⟨lonOfPixel xres tb.minx, latOfPixel yres tb.maxy,
       lonOfPixel xres tb.maxx, latOfPixel yres tb.miny⟩ := by
    unfold llBBoxOf lonOfPixel latOfPixel BBox2i.width BBox2i.height
    simp only [BBox2q.mk.injEq, true_and]
    constructor <;> push_cast <;> field_simp <;> ring
  constructor
  · show some (llBBoxOf tb xres yres) = _
    rw [hllb]
  · show some (llBBoxOf tb xres yres) = _
    rw [hllb]

/-- C7 witness: the stamped lon/lat bbox for the full 1024-canvas bbox in
KML and Gigapan modes. -/
theorem lonlat_bbox_stamp_witness :
    (stampConfig Mode.kml ⟨0, 0, 1024, 1024⟩ 1024 1024 0 0 false "m").llBBoxStamped =
      some ⟨lonOfPixel 1024 0, latOfPixel 1024 1024,
            lonOfPixel 1024 1024, latOfPixel 1024 0⟩ ∧
    (stampConfig Mode.gigapan ⟨0, 0, 1024, 1024⟩ 1024 1024 0 0 false "m").llBBoxStamped =
      some ⟨lonOfPixel 1024 0, latOfPixel 1024 1024,
            lonOfPixel 1024 1024, latOfPixel 1024 0⟩ :=
  lonlat_bbox_stamp ⟨0, 0, 1024, 1024⟩ 1024 1024 0 0 false "m"
    (by norm_num) (by norm_num)

theorem validate_unfold (o : Options) (hhelp : o.help = false)
    (hlen : 0 < o.input_files.length)
    (hsph : ¬ (o.datum.type = DatumOverride.sphere ∧ ¬ (o.datum.sphere_radius.set = true))) :
    o.validate = validateBounds (if o.output_file_name = "" then
      { o with output_file_name := dropLastExtension (o.input_files.headD "") }
    else o) := by
  unfold Options.validate
  rw [if_neg (by simp [hhelp]), if_neg (by omega), if_neg hsph]

theorem validateBounds_missing (o : Options)
    (h1 : o.input_files.length = 1) (hg : o.global = false)
    (hany : o.north.set = true ∨ o.south.set = true ∨ o.east.set = true ∨ o.west.set = true)
    (hnall : ¬ (o.north.set = true ∧ o.south.set = true ∧ o.east.set = true ∧ o.west.set = true)) :
    validateBounds o =
      Except.error "If you provide one, you must provide all of: --north --south --east --west" := by
  unfold validateBounds
  have hnot : ¬ (o.global = true ∨ (o.north.set = true ∧ o.south.set = true ∧
      o.east.set = true ∧ o.west.set = true)) := by
    rintro (hg2 | hall)
    · rw [hg] at hg2
      exact absurd hg2 (by simp)
    · exact hnall hall
  rw [if_pos (Or.inr hany), if_neg (not_not_intro h1), if_pos hnot]

theorem validateBounds_multi (o : Options)
    (hmulti : 1 < o.input_files.length)
    (hcond : o.global = true ∨ o.north.set = true ∨ o.south.set = true ∨
      o.east.set = true ∨ o.west.set = true) :
    validateBounds o =
      Except.error "Cannot override georeference information on multiple images" := by
  unfold validateBounds
  rw [if_pos hcond, if_pos (by omega)]

/-- C8: with exactly one input and the global flag off, setting some but
not all of north/south/east/west makes validation fail with the
partial-bounds error; and any bounds override (a set bound or the global
flag) with more than one input fails with the multiple-image error. -/
theorem bounds_validation (o : Options)
    (hhelp : o.help = false)
    (hsph : ¬ (o.datum.type = DatumOverride.sphere ∧ ¬ (o.datum.sphere_radius.set = true))) :
    (o.input_files.length = 1 → o.global = false →
      (o.north.set = true ∨ o.south.set = true ∨ o.east.set = true ∨ o.west.set = true) →
      ¬ (o.north.set = true ∧ o.south.set = true ∧ o.east.set = true ∧ o.west.set = true) →
      o.validate =
        Except.error "If you provide one, you must provide all of: --north --south --east --west") ∧
    (1 < o.input_files.length →
      (o.global = true ∨ o.north.set = true ∨ o.south.set = true ∨
        o.east.set = true ∨ o.west.set = true) →
      o.validate =
        Except.error "Cannot override georeference information on multiple images") := by
  constructor
  · intro h1 hg hany hnall
    rw [validate_unfold o hhelp (by omega) hsph]
    by_cases hname : o.output_file_name = ""
    · rw [if_pos hname]
      exact validateBounds_missing _ h1 hg hany hnall
    · rw [if_neg hname]
      exact validateBounds_missing _ h1 hg hany hnall
  · intro hmulti hcond
    rw [validate_unfold o hhelp (by omega) hsph]
    by_cases hname : o.output_file_name = ""
    · rw [if_pos hname]
      exact validateBounds_multi _ hmulti hcond
    · rw [if_neg hname]
      exact validateBounds_multi _ hmulti hcond

/-- C8 witness: one image with only the north bound set fails with the
partial-bounds error; two images with the global flag fail with the
multiple-image error. -/
theorem bounds_validation_witness :
    Options.validate
        { sampleOptions with input_files := ["a.tif"], north := Tristate.assign 5 } =
      Except.error "If you provide one, you must provide all of: --north --south --east --west" ∧
    Options.validate
        { sampleOptions with input_files := ["a.tif", "b.tif"], global := true } =
      Except.error "Cannot override georeference information on multiple images" :=
  ⟨(bounds_validation
      { sampleOptions with input_files := ["a.tif"], north := Tristate.assign 5 }
      rfl (by decide)).1 rfl rfl (Or.inl rfl) (by decide),
   (bounds_validation
      { sampleOptions with input_files := ["a.tif", "b.tif"], global := true }
      rfl (by decide)).2 (by decide) (Or.inl rfl)⟩

/-- C9: with an empty input list (and the help flag off) validation fails
with the need-one-image error, and the whole pipeline — validation bound
to any downstream stage whatsoever — fails with that same error, so no
image is opened and no reprojection is attempted. -/
theorem empty_input_validation :
    ∀ (o : Options) (rest : Options → Except String Options),
      o.help = false → o.input_files = [] →
      o.validate = Except.error "Need at least one input image" ∧
      (o.validate >>= rest) = Except.error "Need at least one input image" := by
  intro o rest hhelp hempty
  have h1 : o.validate = Except.error "Need at least one input image" := by
    unfold Options.validate
    rw [if_neg (by simp [hhelp]), if_pos (by simp [hempty])]
  exact ⟨h1, by rw [h1]; rfl⟩

/-- C9 witness: the sample record (empty input list) fails validation and
short-circuits the pipeline. -/
theorem empty_input_validation_witness :
    Options.validate sampleOptions = Except.error "Need at least one input image" ∧
    (Options.validate sampleOptions >>= Except.ok) =
      Except.error "Need at least one input image" :=
  empty_input_validation sampleOptions Except.ok rfl rfl

/-- C10: with the global flag set (one input, non-empty output name, help
off, datum and module constraints satisfied), validation succeeds and
returns the very same record with exactly north, south, east, west
replaced by the set values 90, -90, 180, -180 and manual forced true. -/
theorem global_flag_substitution (o : Options)
    (hhelp : o.help = false)
    (hone : o.input_files.length = 1)
    (hsph : ¬ (o.datum.type = DatumOverride.sphere ∧ ¬ (o.datum.sphere_radius.set = true)))
    (hname : ¬ (o.output_file_name = ""))
    (hglobal : o.global = true)
    (hmod : (o.mode = Mode.celestia ∨ o.mode = Mode.uniview) → o.module_name.set = true) :
    o.validate = Except.ok
      { o with north := Tristate.assign 90, south := Tristate.assign (-90),
               east := Tristate.assign 180, west := Tristate.assign (-180),
               manual := true } := by
  rw [validate_unfold o hhelp (by omega) hsph, if_neg hname]
  unfold validateBounds
  rw [if_pos (Or.inl hglobal), if_neg (not_not_intro hone),
    if_neg (not_not_intro (Or.inl hglobal)), if_pos hglobal]
  unfold validateModes
  rw [if_neg (fun h => h.2 hone), if_neg (fun h => h.2 (hmod h.1)),
    if_neg (fun h => h.2 hone)]

/-- C10 witness: the substitution evaluated on a concrete global-flag
invocation. -/
theorem global_flag_substitution_witness :
    Options.validate
        { sampleOptions with input_files := ["img.tif"], output_file_name := "out",
                             global := true } =
      Except.ok { sampleOptions with
        input_files := ["img.tif"], output_file_name := "out", global := true,
        north := Tristate.assign 90, south := Tristate.assign (-90),
        east := Tristate.assign 180, west := Tristate.assign (-180),
        manual := true } :=
  global_flag_substitution
    { sampleOptions with input_files := ["img.tif"], output_file_name := "out",
                         global := true }
    rfl rfl (by decide) (by decide) rfl (by decide)

end ImageToQtree

